import Mathlib

/-!
Verification of the insurer-reliability widget (widget-ui) and its smoke-test
audit against the repository specification.

Numbers in the artifact schema are modelled as rationals (`ℚ`); fields that the
schema marks `number | absent` become `Option ℚ`.  JavaScript's `Number(x) || y`
coercion chain on such fields (where both `undefined` and `0` are falsy) is
embedded as `jsOr`.
-/

namespace Widget

/-- JavaScript `Number(a) || b` on a possibly absent numeric field: an absent
field coerces to `NaN` (falsy) and a present `0` is falsy, so either falls
through to `b`; any other present value is returned. -/
def jsOr (a : Option ℚ) (b : ℚ) : ℚ :=
  match a with
  | some x => if x = 0 then b else x
  | none => b

/-- The truthy content of an optional numeric field: `none` when the field is
absent or zero, `some x` otherwise. `jsOr a b = (truthy a).getD b`. -/
def truthy (a : Option ℚ) : Option ℚ :=
  match a with
  | some x => if x = 0 then none else some x
  | none => none

theorem jsOr_eq_truthy_getD (a : Option ℚ) (b : ℚ) : jsOr a b = (truthy a).getD b := by
  cases a with
  | none => rfl
  | some x =>
    by_cases h : x = 0 <;> simp [jsOr, truthy, h]

/-- `components.financial` in the newer structured shape: an object carrying a
`value` field (from InsurerCard.jsx line 88, `components.financial || {}`). -/
structure FinancialObj where
  value : Option ℚ := none
deriving DecidableEq

/-- The `components.reputation` field of the artifact: absent, a legacy flat
number, or the newer structured object whose recognized keys are
`satisfaction_avg`, `overallSatisfaction` and `nota`
(InsurerCard.jsx lines 93–113). -/
inductive RepField where
  | absent
  | num (q : ℚ)
  | obj (satisfaction_avg overallSatisfaction nota : Option ℚ)
deriving DecidableEq

/-- The `data.components` object of an insurer record. -/
structure Components where
  solvency : Option ℚ := none
  financial : Option FinancialObj := none
  reputation : RepField := .absent
deriving DecidableEq

/-- The `data` object of an insurer record. -/
structure InsurerData where
  score : Option ℚ := none
  financial_score : Option ℚ := none
  premiums : Option ℚ := none
  components : Option Components := none
deriving DecidableEq

/-- One insurer record of the artifact's `insurers` list, restricted to the
fields the widget reads. -/
structure Insurer where
  cnpj : String
  name : Option String := none
  data : Option InsurerData := none
deriving DecidableEq

/-- `insurer.data || {}` (InsurerCard.jsx line 79, App.jsx lines 51–52). -/
def getData (i : Insurer) : InsurerData := i.data.getD {}

/-- `data.components || {}` (InsurerCard.jsx line 80). -/
def getComponents (d : InsurerData) : Components := d.components.getD {}

/-! ### Current InsurerCard: dual-shape resolution (InsurerCard.jsx 77–113) -/

/-- `const score = Number(data.score) || Number(data.financial_score) || 0`
(InsurerCard.jsx line 85). -/
def scoreOfCard (d : InsurerData) : ℚ := jsOr d.score (jsOr d.financial_score 0)

/-- `const solvency = Number(components.solvency) || Number(financialComp.value) || 0`
with `financialComp = components.financial || {}` (InsurerCard.jsx lines 88–90). -/
def solvencyResolve (c : Components) : ℚ :=
  jsOr c.solvency (jsOr (c.financial.getD {}).value 0)

/-- `const rawNota = repObj.satisfaction_avg || repObj.overallSatisfaction || repObj.nota || 0`
(InsurerCard.jsx line 104). -/
def rawNotaOf (sa os n : Option ℚ) : ℚ := jsOr sa (jsOr os (jsOr n 0))

/-- The reputation branch of the card (InsurerCard.jsx lines 93–113): returns
`(reputationScore, hasReputation)`.  A flat number is used directly; a
structured object is normalized by `rawNota <= 5 ? rawNota * 20 : rawNota * 10`
guarded by `rawNota > 0`; otherwise the component has no reputation data. -/
def repResolve : RepField → ℚ × Bool
  | .num q => (q, true)
  | .obj sa os n =>
    let r := rawNotaOf sa os n
    if 0 < r then (if r ≤ 5 then r * 20 else r * 10, true) else (0, false)
  | .absent => (0, false)

/-- What a metric cell of the card shows: a numeric value (later formatted with
`toFixed`) or a no-data marker string such as `"--"`, `"-"` or `"N/A"`. -/
inductive CellVal where
  | num (q : ℚ)
  | noData (marker : String)
deriving DecidableEq

/-- Score cell of the current card: `score > 0 ? score.toFixed(1) : '--'`
(InsurerCard.jsx line 234). -/
def scoreCell (d : InsurerData) : CellVal :=
  if 0 < scoreOfCard d then .num (scoreOfCard d) else .noData "--"

/-- Financial cell of the current card: `solvency > 0 ? solvency.toFixed(0) : '-'`
(InsurerCard.jsx line 185). -/
def solvencyCell (c : Components) : CellVal :=
  if 0 < solvencyResolve c then .num (solvencyResolve c) else .noData "-"

/-- Reputation cell of the current card: `hasReputation ? reputationScore.toFixed(0) : 'N/A'`
(InsurerCard.jsx lines 199–205). -/
def repCell (c : Components) : CellVal :=
  if (repResolve c.reputation).2 then .num (repResolve c.reputation).1 else .noData "N/A"

/-! ### Legacy InsurerCard (first version of the file, lines 4–7)

The legacy card reads the flat numeric fields with a bare `|| 0` coercion and
always renders a number (`score.toFixed(1)`, `solvency.toFixed(0)`,
`reputation.toFixed(0)`); an absent field is displayed as the number `0`. -/

/-- Legacy `const score = insurer.data.score || 0`, rendered `score.toFixed(1)`. -/
def legacyScoreCell (score : Option ℚ) : CellVal := .num (jsOr score 0)

/-- Legacy `const solvency = insurer.data.components?.solvency || 0`. -/
def legacySolvencyCell (solvency : Option ℚ) : CellVal := .num (jsOr solvency 0)

/-- Legacy `const reputation = insurer.data.components?.reputation || 0`
(on the legacy flat numeric shape of the field). -/
def legacyRepCell (reputation : Option ℚ) : CellVal := .num (jsOr reputation 0)

/-! ### App.jsx: deduplication, search, sort, pagination -/

/-- `Number(data.financial_score) || Number(data.score) || 0`: the effective
score the list view sorts by (App.jsx lines 54–55). -/
def scoreOfSort (i : Insurer) : ℚ :=
  jsOr (getData i).financial_score (jsOr (getData i).score 0)

/-- `Number(data.premiums) || 0` (App.jsx lines 57–58). -/
def premOf (i : Insurer) : ℚ := jsOr (getData i).premiums 0

/-- The order induced by the `sortKey === 'score'` comparator (App.jsx
lines 60–63): `a` may be placed at or before `b` when `a`'s effective score is
strictly higher, or the scores tie and `a`'s premium volume is at least `b`'s. -/
def rankR (a b : Insurer) : Prop :=
  scoreOfSort b < scoreOfSort a ∨ (scoreOfSort a = scoreOfSort b ∧ premOf b ≤ premOf a)

/-- The order induced by the `sortKey === 'premiums'` comparator (App.jsx
lines 65–67). -/
def premR (a b : Insurer) : Prop := premOf b ≤ premOf a

instance : DecidableRel rankR := fun _ _ =>
  inferInstanceAs (Decidable (_ ∨ _ ∧ _))

instance : DecidableRel premR := fun _ _ =>
  inferInstanceAs (Decidable (_ ≤ _))

instance : IsTotal Insurer rankR where
  total a b := by
    rcases lt_trichotomy (scoreOfSort a) (scoreOfSort b) with h | h | h
    · exact Or.inr (Or.inl h)
    · rcases le_total (premOf a) (premOf b) with hp | hp
      · exact Or.inr (Or.inr ⟨h.symm, hp⟩)
      · exact Or.inl (Or.inr ⟨h, hp⟩)
    · exact Or.inl (Or.inl h)

instance : IsTrans Insurer rankR where
  trans a b c hab hbc := by
    rcases hab with h1 | ⟨h1, p1⟩ <;> rcases hbc with h2 | ⟨h2, p2⟩
    · exact Or.inl (h2.trans h1)
    · exact Or.inl (h2 ▸ h1)
    · exact Or.inl (h1 ▸ h2)
    · exact Or.inr ⟨h1.trans h2, p2.trans p1⟩

instance : IsTotal Insurer premR where
  total a b := (le_total (premOf b) (premOf a)).imp id id

instance : IsTrans Insurer premR where
  trans _ _ _ hab hbc := hbc.trans hab

/-- The widget's two sort keys (App.jsx line 11). -/
inductive SortKey where
  | score
  | premiums
deriving DecidableEq

/-- `sub` occurs as a prefix of the character list. -/
def isPrefLC : List Char → List Char → Bool
  | [], _ => true
  | _ :: _, [] => false
  | a :: as, b :: bs => a = b && isPrefLC as bs

/-- `sub` occurs contiguously somewhere in the character list. -/
def hasSubLC (sub : List Char) : List Char → Bool
  | [] => isPrefLC sub []
  | c :: rest => isPrefLC sub (c :: rest) || hasSubLC sub rest

/-- JavaScript `s.includes(sub)`. -/
def strIncludes (s sub : String) : Bool := hasSubLC sub.toList s.toList

/-- The search filter (App.jsx lines 40–46): applied only when the term is
truthy; matches on the lowercased name or the cnpj, each guarded by its own
truthiness (`i.name && …`, `i.cnpj && …`, empty strings falsy). -/
def searchFilter (term : String) (l : List Insurer) : List Insurer :=
  if term = "" then l
  else
    let t := term.toLower
    l.filter fun i =>
      (match i.name with
       | some n => if n = "" then false else strIncludes n.toLower t
       | none => false)
      || (if i.cnpj = "" then false else strIncludes i.cnpj t)

/-- The `res.sort(...)` call (App.jsx lines 49–70), modelled as a sort with
respect to the total preorder the comparator induces for the active key. -/
def sortData : SortKey → List Insurer → List Insurer
  | .score, l => List.insertionSort rankR l
  | .premiums, l => List.insertionSort premR l

/-- `processedData` (App.jsx lines 36–74): search filter, then sort. -/
def processedData (term : String) (k : SortKey) (l : List Insurer) : List Insurer :=
  sortData k (searchFilter term l)

/-- `const itemsPerPage = 10` (App.jsx line 15). -/
def itemsPerPage : Nat := 10

/-- `Math.ceil(len / itemsPerPage)` (App.jsx line 76). -/
def totalPagesOf (n : Nat) : Nat := (n + itemsPerPage - 1) / itemsPerPage

/-- JavaScript `l.slice(a, b)` for `a ≤ b`. -/
def sliceJS (l : List Insurer) (a b : Nat) : List Insurer := (l.drop a).take (b - a)

/-- `processedData.slice((currentPage - 1) * itemsPerPage, currentPage * itemsPerPage)`
(App.jsx lines 77–80). -/
def paginate (p : Nat) (l : List Insurer) : List Insurer :=
  sliceJS l ((p - 1) * itemsPerPage) (p * itemsPerPage)

/-! #### Deduplication by cnpj (App.jsx lines 21–24)

`Array.from(new Map(rawList.map(item => [item.cnpj, item])).values())`:
a JavaScript `Map` built from key/value pairs keeps each key at its first
insertion position and overwrites its value on re-insertion, so the last
occurrence's value wins. -/

/-- One `Map.set` step: replace the value in place when the key is already
bound, append otherwise. -/
def upsert : List (String × Insurer) → String → Insurer → List (String × Insurer)
  | [], k, v => [(k, v)]
  | (k', v') :: rest, k, v =>
    if k' = k then (k, v) :: rest else (k', v') :: upsert rest k v

/-- `new Map(rawList.map(item => [item.cnpj, item]))` as an ordered
association list. -/
def toMapEntries (l : List Insurer) : List (String × Insurer) :=
  l.foldl (fun m i => upsert m i.cnpj i) []

/-- `Array.from(map.values())`: the deduplicated list the widget stores
(App.jsx line 23). -/
def uniqueList (l : List Insurer) : List Insurer := (toMapEntries l).map Prod.snd

/-! ### Widget interaction state (App.jsx pagination invariants) -/

/-- The state the pagination claims speak about: the ingested list plus the
three pieces of UI state (`searchTerm`, `sortKey`, `currentPage`). -/
structure WState where
  insurers : List Insurer
  searchTerm : String
  sortKey : SortKey
  currentPage : Nat

/-- `processedData` for the current state. -/
def WState.processed (s : WState) : List Insurer :=
  processedData s.searchTerm s.sortKey s.insurers

/-- `totalPages` for the current state (App.jsx line 76). -/
def WState.totalPages (s : WState) : Nat := totalPagesOf s.processed.length

/-- `paginatedData` for the current state (App.jsx lines 77–80). -/
def WState.paginated (s : WState) : List Insurer := paginate s.currentPage s.processed

/-- The user interactions that touch search, sort or pagination. -/
inductive WEvent where
  | setSearch (t : String)
  | setSort (k : SortKey)
  | prevPage
  | nextPage

/-- One interaction step.  Changing the search term or sort key resets
`currentPage` to 1 (the effect at App.jsx lines 33–35; an unchanged value does
not re-render).  The prev/next buttons exist only when `totalPages > 1`
(App.jsx line 161), are disabled at the ends, and clamp with
`Math.max(1, p - 1)` / `Math.min(totalPages, p + 1)` (App.jsx lines 162–184). -/
def step (s : WState) : WEvent → WState
  | .setSearch t =>
    if t = s.searchTerm then s else { s with searchTerm := t, currentPage := 1 }
  | .setSort k =>
    if k = s.sortKey then s else { s with sortKey := k, currentPage := 1 }
  | .prevPage =>
    if s.totalPages ≤ 1 ∨ s.currentPage = 1 then s
    else { s with currentPage := max 1 (s.currentPage - 1) }
  | .nextPage =>
    if s.totalPages ≤ 1 ∨ s.currentPage = s.totalPages then s
    else { s with currentPage := min s.totalPages (s.currentPage + 1) }

/-- The initial state after the fetch effect stores the deduplicated list
(App.jsx lines 10–25): empty search, sort by score, page 1. -/
def initState (raw : List Insurer) : WState :=
  ⟨uniqueList raw, "", .score, 1⟩

/-! ### The smoke-test audit (verify_extraction.sh, inline Python, lines 53–83) -/

/-- The provenance block for one source in the artifact's `sources` mapping. -/
structure SourceProv where
  files : List String
deriving DecidableEq

/-- One entity as the audit reads it: `i.get("flags", {}).get("openInsuranceParticipant")`. -/
structure EntityJson where
  openInsuranceParticipant : Option Bool := none
deriving DecidableEq

/-- The truthiness of the flag as the audit tests it. -/
def flagged (i : EntityJson) : Bool := i.openInsuranceParticipant.getD false

/-- The parts of `insurers.json` the audit reads. -/
structure ArtifactJson where
  open_insurance_products : Option SourceProv := none
  insurers : List EntityJson := []
deriving DecidableEq

/-- The exit status of the inline Python audit (verify_extraction.sh
lines 53–83).  `none` models a missing artifact file.  A missing
`open_insurance_products` provenance exits 1; a file list shorter than 3 only
prints a warning; zero entities with a truthy `openInsuranceParticipant` flag
exits 1; otherwise the audit succeeds with exit status 0. -/
def audit : Option ArtifactJson → Nat
  | none => 1
  | some a =>
    match a.open_insurance_products with
    | none => 1
    | some _ =>
      if (a.insurers.countP fun i => flagged i) = 0 then 1 else 0

/-! ### Helper observers used by the statements -/

/-- Lookup in the ordered association list modelling the JavaScript `Map`. -/
def lookupK (k : String) : List (String × Insurer) → Option Insurer
  | [] => none
  | (k', v) :: rest => if k' = k then some v else lookupK k rest

/-- The last record in `l` whose `cnpj` is `k` (JavaScript last-occurrence). -/
def lastOcc (k : String) (l : List Insurer) : Option Insurer :=
  l.reverse.find? fun i => i.cnpj == k

/-- The pagination invariant of the widget state: the current page lies between
1 and `max totalPages 1`. -/
def pageInv (s : WState) : Prop :=
  1 ≤ s.currentPage ∧ s.currentPage ≤ max s.totalPages 1

end Widget

namespace Widget

/-! ## Supporting lemmas -/

theorem jsOr_some_ne (x : ℚ) (b : ℚ) (h : x ≠ 0) : jsOr (some x) b = x := by
  simp [jsOr, h]

theorem jsOr_none (b : ℚ) : jsOr none b = b := rfl

theorem jsOr_some_zero (b : ℚ) : jsOr (some 0) b = b := by simp [jsOr]

theorem audit_some_eq (a : ArtifactJson) (prov : SourceProv)
    (hp : a.open_insurance_products = some prov) :
    audit (some a) = if (a.insurers.countP fun i => flagged i) = 0 then 1 else 0 := by
  simp only [audit, hp]

theorem countP_flagged_ne_zero {a : ArtifactJson}
    (hex : ∃ i ∈ a.insurers, flagged i = true) :
    (a.insurers.countP fun i => flagged i) ≠ 0 := by
  rcases hex with ⟨i, hi, hf⟩
  intro h0
  exact absurd hf (by simpa using List.countP_eq_zero.mp h0 i hi)

end Widget

namespace Widget

/-! ## Claim theorems -/

/-- C1 (counterexample): the claim asserts that a raw rating already on the
0–100 scale passes through unchanged and that the normalized result always lies
in [0,100].  On the code, a structured reputation with raw rating 84 is
multiplied by 10, yielding 840: it neither passes through nor stays in range. -/
theorem c1_counterexample :
    (repResolve (RepField.obj (some 84) none none)).1 = 840 ∧
    (repResolve (RepField.obj (some 84) none none)).1 ≠ 84 ∧
    ¬ (repResolve (RepField.obj (some 84) none none)).1 ≤ 100 := by
  refine ⟨?_, ?_, ?_⟩ <;> norm_num [repResolve, rawNotaOf, jsOr]

/-- C1 (amended): for a structured reputation object with positive raw rating
`r`, the widget normalizes by `r * 20` when `r ≤ 5` and by `r * 10` otherwise
(there is no pass-through branch); the result lies in [0,100] whenever
`r ≤ 10`; and a raw rating of 4.2 yields 84. -/
theorem c1_structured_normalization :
    (∀ sa os n : Option ℚ, 0 < rawNotaOf sa os n →
      ((repResolve (RepField.obj sa os n)).1 =
        (if rawNotaOf sa os n ≤ 5 then rawNotaOf sa os n * 20 else rawNotaOf sa os n * 10)) ∧
      (rawNotaOf sa os n ≤ 10 →
        0 ≤ (repResolve (RepField.obj sa os n)).1 ∧
        (repResolve (RepField.obj sa os n)).1 ≤ 100)) ∧
    (repResolve (RepField.obj (some (21 / 5)) none none)).1 = 84 := by
  refine ⟨fun sa os n h => ?_, by norm_num [repResolve, rawNotaOf, jsOr]⟩
  have hres : (repResolve (RepField.obj sa os n)).1 =
      if rawNotaOf sa os n ≤ 5 then rawNotaOf sa os n * 20 else rawNotaOf sa os n * 10 := by
    simp [repResolve, if_pos h]
  refine ⟨hres, fun h10 => ?_⟩
  rw [hres]
  by_cases h5 : rawNotaOf sa os n ≤ 5
  · rw [if_pos h5]
    constructor <;> nlinarith
  · rw [if_neg h5]
    push_neg at h5
    constructor <;> nlinarith

/-- Witness for C1: a concrete structured rating of 3 satisfies the positivity
hypothesis and normalizes by the `≤ 5` branch. -/
theorem c1_structured_normalization_witness :
    0 < rawNotaOf (some 3) none none ∧
    ((repResolve (RepField.obj (some 3) none none)).1 =
      (if rawNotaOf (some 3) none none ≤ 5 then rawNotaOf (some 3) none none * 20
       else rawNotaOf (some 3) none none * 10)) ∧
    0 ≤ (repResolve (RepField.obj (some 3) none none)).1 ∧
    (repResolve (RepField.obj (some 3) none none)).1 ≤ 100 :=
  ⟨by decide,
   (c1_structured_normalization.1 (some 3) none none (by decide)).1,
   (c1_structured_normalization.1 (some 3) none none (by decide)).2 (by decide)⟩

end Widget

namespace Widget

/-- C9: in the structured reputation shape, a raw rating whose truthiness chain
yields 0 — a rating of exactly 0, or no rating under any recognized key —
makes `hasReputation` false, renders the N/A marker, and is indistinguishable
from a fully absent reputation component. -/
theorem c9_structured_zero_is_no_data :
    ∀ (c : Components) (sa os n : Option ℚ),
      c.reputation = RepField.obj sa os n → rawNotaOf sa os n = 0 →
      (repResolve c.reputation).2 = false ∧
      repCell c = CellVal.noData "N/A" ∧
      repCell c = repCell { c with reputation := RepField.absent } := by
  intro c sa os n hc h0
  have h1 : repResolve c.reputation = (0, false) := by
    rw [hc]
    simp [repResolve, h0]
  have h2 : repResolve RepField.absent = (0, false) := rfl
  refine ⟨by rw [h1], ?_, ?_⟩
  · simp [repCell, h1]
  · simp [repCell, h1, h2]

/-- Witness for C9: a structured reputation carrying `satisfaction_avg: 0`. -/
theorem c9_structured_zero_is_no_data_witness :
    (Components.mk none none (RepField.obj (some 0) none none)).reputation =
      RepField.obj (some 0) none none ∧
    rawNotaOf (some 0) none none = 0 ∧
    ((repResolve (Components.mk none none (RepField.obj (some 0) none none)).reputation).2 = false ∧
     repCell (Components.mk none none (RepField.obj (some 0) none none)) = CellVal.noData "N/A" ∧
     repCell (Components.mk none none (RepField.obj (some 0) none none)) =
       repCell { Components.mk none none (RepField.obj (some 0) none none) with
                   reputation := RepField.absent }) :=
  ⟨rfl, by simp [rawNotaOf, jsOr],
   c9_structured_zero_is_no_data
     (Components.mk none none (RepField.obj (some 0) none none))
     (some 0) none none rfl (by simp [rawNotaOf, jsOr])⟩

/-- C2 (counterexample): the legacy version of the card in the repository
coerces absent values with `|| 0` and always renders a number, so an entirely
absent score, solvency and reputation are each displayed as the numeric
value 0 — the widget does display an absent score or component as 0. -/
theorem c2_counterexample :
    legacyScoreCell none = CellVal.num 0 ∧
    legacySolvencyCell none = CellVal.num 0 ∧
    legacyRepCell none = CellVal.num 0 :=
  ⟨rfl, rfl, rfl⟩

/-- C2 (amended): the current version of the card renders a fully absent score
as the `"--"` marker, an absent financial component as `"-"`, an absent
reputation component as `"N/A"` — all no-data markers, never the number 0 —
while the legacy version of the card coerced absent values to a displayed 0. -/
theorem c2_current_absent_is_no_data :
    (∀ d : InsurerData, d.score = none → d.financial_score = none →
      scoreCell d = CellVal.noData "--") ∧
    (∀ c : Components, c.solvency = none → c.financial = none →
      solvencyCell c = CellVal.noData "-") ∧
    (∀ c : Components, c.reputation = RepField.absent →
      repCell c = CellVal.noData "N/A") ∧
    (∀ (q : ℚ) (m : String), CellVal.num q ≠ CellVal.noData m) := by
  refine ⟨?_, ?_, ?_, ?_⟩
  · intro d h1 h2
    simp [scoreCell, scoreOfCard, h1, h2, jsOr]
  · intro c h1 h2
    simp [solvencyCell, solvencyResolve, h1, h2, jsOr]
  · intro c h
    simp [repCell, h, repResolve]
  · intro q m h
    exact CellVal.noConfusion h

/-- Witness for C2: the record with every field absent renders the three
no-data markers. -/
theorem c2_current_absent_is_no_data_witness :
    ({} : InsurerData).score = none ∧
    ({} : InsurerData).financial_score = none ∧
    ({} : Components).solvency = none ∧
    ({} : Components).financial = none ∧
    ({} : Components).reputation = RepField.absent ∧
    scoreCell {} = CellVal.noData "--" ∧
    solvencyCell {} = CellVal.noData "-" ∧
    repCell {} = CellVal.noData "N/A" ∧
    CellVal.num 0 ≠ CellVal.noData "--" :=
  ⟨rfl, rfl, rfl, rfl, rfl,
   c2_current_absent_is_no_data.1 {} rfl rfl,
   c2_current_absent_is_no_data.2.1 {} rfl rfl,
   c2_current_absent_is_no_data.2.2.1 {} rfl,
   c2_current_absent_is_no_data.2.2.2 0 "--"⟩

/-- C5 (counterexample): the claim asserts the financial component is taken
from `components.solvency` whenever that key is present.  On the code the
check is truthiness, not presence: a present `solvency: 0` falls through to
`components.financial.value`, so the record `{solvency: 0, financial:
{value: 50}}` resolves to 50, not 0. -/
theorem c5_counterexample :
    solvencyResolve
      (Components.mk (some 0) (some (FinancialObj.mk (some 50))) RepField.absent) = 50 ∧
    (50 : ℚ) ≠ 0 := by
  constructor
  · simp [solvencyResolve, jsOr]
  · norm_num

/-- C5 (amended): resolution is by truthiness of each shape in turn: a present
nonzero `components.solvency` wins regardless of the structured shape; a lone
structured `components.financial.value` carrying the same nonzero number
resolves to the same displayed value; a flat numeric reputation is used
directly, and a structured reputation with positive raw rating is also
resolvable. -/
theorem c5_truthy_resolution :
    (∀ (v : ℚ) (fin : Option FinancialObj) (rep : RepField), v ≠ 0 →
      solvencyResolve (Components.mk (some v) fin rep) = v) ∧
    (∀ (v : ℚ) (rep : RepField), v ≠ 0 →
      solvencyResolve (Components.mk none (some (FinancialObj.mk (some v))) rep) = v) ∧
    (∀ q : ℚ, repResolve (RepField.num q) = (q, true)) ∧
    (∀ sa os n : Option ℚ, 0 < rawNotaOf sa os n →
      (repResolve (RepField.obj sa os n)).2 = true) := by
  refine ⟨?_, ?_, fun q => rfl, ?_⟩
  · intro v fin rep hv
    simp [solvencyResolve, jsOr, hv]
  · intro v rep hv
    simp [solvencyResolve, jsOr, hv]
  · intro sa os n h
    simp [repResolve, if_pos h]

/-- Witness for C5: the value 72 in the legacy flat shape and in the newer
structured shape resolves identically, and a structured rating of 3 has
reputation data. -/
theorem c5_truthy_resolution_witness :
    (72 : ℚ) ≠ 0 ∧
    solvencyResolve (Components.mk (some 72) none RepField.absent) = 72 ∧
    solvencyResolve (Components.mk none (some (FinancialObj.mk (some 72))) RepField.absent) = 72 ∧
    repResolve (RepField.num 72) = (72, true) ∧
    0 < rawNotaOf (some 3) none none ∧
    (repResolve (RepField.obj (some 3) none none)).2 = true :=
  ⟨by norm_num,
   c5_truthy_resolution.1 72 none RepField.absent (by norm_num),
   c5_truthy_resolution.2.1 72 RepField.absent (by norm_num),
   c5_truthy_resolution.2.2.1 72,
   by decide,
   c5_truthy_resolution.2.2.2 (some 3) none none (by decide)⟩

/-- C8 (counterexample): on a record carrying both fields with distinct nonzero
values (`score: 70`, `financial_score: 80`), the list view sorts by 80 while
the card displays 70 — the two fallback chains do not agree there. -/
theorem c8_counterexample :
    scoreOfSort
      (Insurer.mk "00000000000000" none
        (some (InsurerData.mk (some 70) (some 80) none none))) = 80 ∧
    scoreOfCard (InsurerData.mk (some 70) (some 80) none none) = 70 ∧
    (80 : ℚ) ≠ 70 := by
  refine ⟨?_, ?_, by norm_num⟩ <;>
    simp [scoreOfSort, scoreOfCard, getData, jsOr]

/-- C8 (amended): the sorting chain (`financial_score` first) and the display
chain (`score` first) agree exactly on the records where the two fields carry
the same truthy value or at least one of them is absent or zero; on records
carrying two distinct nonzero values they differ. -/
theorem c8_fallback_agreement :
    ∀ i : Insurer,
      (truthy (getData i).score = truthy (getData i).financial_score ∨
       truthy (getData i).score = none ∨
       truthy (getData i).financial_score = none) →
      scoreOfSort i = scoreOfCard (getData i) := by
  intro i h
  unfold scoreOfSort scoreOfCard
  rw [jsOr_eq_truthy_getD, jsOr_eq_truthy_getD, jsOr_eq_truthy_getD, jsOr_eq_truthy_getD]
  rcases h with h | h | h
  · rw [h]
  · rw [h]
    cases truthy (getData i).financial_score <;> simp
  · rw [h]
    cases truthy (getData i).score <;> simp

/-- Witness for C8: a record carrying only `score: 42` satisfies the agreement
hypothesis, and both chains yield 42. -/
theorem c8_fallback_agreement_witness :
    truthy (getData (Insurer.mk "00000000000000" none
      (some (InsurerData.mk (some 42) none none none)))).financial_score = none ∧
    scoreOfSort (Insurer.mk "00000000000000" none
      (some (InsurerData.mk (some 42) none none none))) =
      scoreOfCard (getData (Insurer.mk "00000000000000" none
        (some (InsurerData.mk (some 42) none none none)))) :=
  ⟨rfl,
   c8_fallback_agreement
     (Insurer.mk "00000000000000" none (some (InsurerData.mk (some 42) none none none)))
     (Or.inr (Or.inr rfl))⟩

end Widget

namespace Widget

/-- C6: given that the artifact exists and the `open_insurance_products`
provenance is present, the audit exits nonzero when every entity's
`openInsuranceParticipant` flag is false or missing, and exits 0 when at least
one entity carries the flag. -/
theorem c6_zero_flagged_hard_failure :
    ∀ (a : ArtifactJson) (prov : SourceProv),
      a.open_insurance_products = some prov →
      ((∀ i ∈ a.insurers, flagged i = false) → audit (some a) = 1) ∧
      ((∃ i ∈ a.insurers, flagged i = true) → audit (some a) = 0) := by
  intro a prov hp
  rw [audit_some_eq a prov hp]
  constructor
  · intro hall
    have h0 : (a.insurers.countP fun i => flagged i) = 0 :=
      List.countP_eq_zero.mpr fun i hi => by simp [hall i hi]
    simp [h0]
  · intro hex
    simp [countP_flagged_ne_zero hex]

/-- Witness for C6: an artifact with the provenance present and one flagged
entity passes the audit; the same artifact with the flag removed fails it. -/
theorem c6_zero_flagged_hard_failure_witness :
    (ArtifactJson.mk (some (SourceProv.mk ["auto", "vida", "residencial"]))
        [EntityJson.mk (some true)]).open_insurance_products =
      some (SourceProv.mk ["auto", "vida", "residencial"]) ∧
    audit (some (ArtifactJson.mk (some (SourceProv.mk ["auto", "vida", "residencial"]))
        [EntityJson.mk (some true)])) = 0 ∧
    audit (some (ArtifactJson.mk (some (SourceProv.mk ["auto", "vida", "residencial"]))
        [EntityJson.mk none])) = 1 :=
  ⟨rfl,
   (c6_zero_flagged_hard_failure _ _ rfl).2
     ⟨EntityJson.mk (some true), List.mem_singleton.mpr rfl, rfl⟩,
   (c6_zero_flagged_hard_failure _ _ rfl).1
     (fun i hi => by rw [List.mem_singleton.mp hi]; rfl)⟩

/-- C7 (counterexample): an artifact whose `open_insurance_products` file list
has a single entry — shorter than the expected minimum of three — still passes
the audit when the other checks succeed, so a short file list does not make the
script exit nonzero. -/
theorem c7_counterexample :
    audit (some (ArtifactJson.mk (some (SourceProv.mk ["f1"]))
        [EntityJson.mk (some true)])) = 0 ∧
    (SourceProv.mk ["f1"]).files.length < 3 := by
  constructor
  · rfl
  · decide

/-- C7 (amended): the audit exits nonzero whenever the artifact file is missing
or the `open_insurance_products` provenance is absent; a provenance whose file
list is shorter than the minimum of three only triggers a warning, and with at
least one flagged entity the audit still exits 0. -/
theorem c7_audit_exit_conditions :
    audit none = 1 ∧
    (∀ a : ArtifactJson, a.open_insurance_products = none → audit (some a) = 1) ∧
    (∀ (a : ArtifactJson) (prov : SourceProv),
      a.open_insurance_products = some prov → prov.files.length < 3 →
      (∃ i ∈ a.insurers, flagged i = true) → audit (some a) = 0) := by
  refine ⟨rfl, ?_, ?_⟩
  · intro a h
    simp only [audit, h]
  · intro a prov hp _ hex
    rw [audit_some_eq a prov hp]
    simp [countP_flagged_ne_zero hex]

/-- Witness for C7: a missing provenance fails, and a one-file provenance with
a flagged entity succeeds. -/
theorem c7_audit_exit_conditions_witness :
    (ArtifactJson.mk none [EntityJson.mk (some true)]).open_insurance_products = none ∧
    audit (some (ArtifactJson.mk none [EntityJson.mk (some true)])) = 1 ∧
    (ArtifactJson.mk (some (SourceProv.mk ["f1"]))
        [EntityJson.mk (some true)]).open_insurance_products = some (SourceProv.mk ["f1"]) ∧
    (SourceProv.mk ["f1"]).files.length < 3 ∧
    audit (some (ArtifactJson.mk (some (SourceProv.mk ["f1"]))
        [EntityJson.mk (some true)])) = 0 :=
  ⟨rfl,
   c7_audit_exit_conditions.2.1 _ rfl,
   rfl,
   by decide,
   c7_audit_exit_conditions.2.2 _ _ rfl (by decide)
     ⟨EntityJson.mk (some true), List.mem_singleton.mpr rfl, rfl⟩⟩

end Widget

namespace Widget

/-! ### Lemmas about the Map-based deduplication -/

theorem lookupK_upsert (m : List (String × Insurer)) (k k' : String) (v : Insurer) :
    lookupK k (upsert m k' v) = if k' = k then some v else lookupK k m := by
  induction m with
  | nil => simp [upsert, lookupK]
  | cons p rest ih =>
    obtain ⟨pk, pv⟩ := p
    by_cases h1 : pk = k'
    · subst h1
      simp only [upsert, if_pos rfl]
      by_cases h2 : pk = k
      · subst h2
        simp [lookupK]
      · simp [lookupK, h2]
    · simp only [upsert, if_neg h1]
      by_cases h2 : pk = k
      · subst h2
        have hk : ¬ k' = pk := fun e => h1 e.symm
        simp [lookupK, hk]
      · simp [lookupK, h2, ih]

theorem keys_upsert (m : List (String × Insurer)) (k : String) (v : Insurer) :
    (upsert m k v).map Prod.fst =
      if k ∈ m.map Prod.fst then m.map Prod.fst else m.map Prod.fst ++ [k] := by
  induction m with
  | nil => simp [upsert]
  | cons p rest ih =>
    obtain ⟨pk, pv⟩ := p
    by_cases h1 : pk = k
    · subst h1
      simp [upsert]
    · have h1' : ¬ k = pk := fun e => h1 e.symm
      simp only [upsert, if_neg h1, List.map_cons, List.mem_cons, h1', false_or]
      by_cases h2 : k ∈ rest.map Prod.fst
      · simp [h2, ih]
      · simp [h2, ih]

theorem nodup_keys_upsert (m : List (String × Insurer)) (k : String) (v : Insurer)
    (h : (m.map Prod.fst).Nodup) : ((upsert m k v).map Prod.fst).Nodup := by
  rw [keys_upsert]
  by_cases hk : k ∈ m.map Prod.fst
  · simpa [hk] using h
  · simp [hk, List.nodup_append, h]

theorem mem_upsert {m : List (String × Insurer)} {k : String} {v : Insurer}
    {p : String × Insurer} (hp : p ∈ upsert m k v) : p ∈ m ∨ p = (k, v) := by
  induction m with
  | nil =>
    rw [upsert, List.mem_singleton] at hp
    exact Or.inr hp
  | cons q rest ih =>
    obtain ⟨qk, qv⟩ := q
    by_cases h1 : qk = k
    · rw [upsert, if_pos h1, List.mem_cons] at hp
      rcases hp with h | h
      · exact Or.inr h
      · exact Or.inl (List.mem_cons_of_mem _ h)
    · rw [upsert, if_neg h1, List.mem_cons] at hp
      rcases hp with h | h
      · exact Or.inl (List.mem_cons.mpr (Or.inl h))
      · rcases ih h with h' | h'
        · exact Or.inl (List.mem_cons_of_mem _ h')
        · exact Or.inr h'

/-- Invariants of the folded `Map`: the keys are distinct, and every binding's
key is the bound record's `cnpj`. -/
theorem foldl_upsert_invariant :
    ∀ (l : List Insurer) (m : List (String × Insurer)),
      (m.map Prod.fst).Nodup → (∀ p ∈ m, p.1 = p.2.cnpj) →
      (((l.foldl (fun m i => upsert m i.cnpj i) m).map Prod.fst).Nodup ∧
       ∀ p ∈ l.foldl (fun m i => upsert m i.cnpj i) m, p.1 = p.2.cnpj) := by
  intro l
  induction l with
  | nil => intro m h1 h2; exact ⟨h1, h2⟩
  | cons i rest ih =>
    intro m h1 h2
    refine ih (upsert m i.cnpj i) (nodup_keys_upsert m i.cnpj i h1) ?_
    intro p hp
    rcases mem_upsert hp with h | h
    · exact h2 p h
    · rw [h]

theorem lookupK_eq_of_mem :
    ∀ {m : List (String × Insurer)} {k : String} {v : Insurer},
      (m.map Prod.fst).Nodup → (k, v) ∈ m → lookupK k m = some v := by
  intro m
  induction m with
  | nil => intro k v _ h; cases h
  | cons p rest ih =>
    intro k v hnd hm
    obtain ⟨pk, pv⟩ := p
    rw [List.map_cons, List.nodup_cons] at hnd
    rcases List.mem_cons.mp hm with h | h
    · rw [Prod.mk.injEq] at h
      obtain ⟨h1, h2⟩ := h
      subst h1
      subst h2
      simp [lookupK]
    · by_cases hk : pk = k
      · subst hk
        have hmem : pk ∈ rest.map Prod.fst := List.mem_map.mpr ⟨(pk, v), h, rfl⟩
        exact absurd hmem hnd.1
      · simpa [lookupK, hk] using ih hnd.2 h

theorem lastOcc_cons (k : String) (i : Insurer) (rest : List Insurer) :
    lastOcc k (i :: rest) =
      (lastOcc k rest).or (if i.cnpj = k then some i else none) := by
  unfold lastOcc
  rw [List.reverse_cons, List.find?_append]
  by_cases h : i.cnpj = k
  · simp [List.find?, h]
  · have hb : (i.cnpj == k) = false := beq_eq_false_iff_ne.mpr h
    simp [List.find?, h, hb, Option.or_none]

/-- Folding the whole list and then looking a key up returns the last
occurrence of that key, falling back to the accumulator. -/
theorem lookupK_foldl_upsert :
    ∀ (l : List Insurer) (m : List (String × Insurer)) (k : String),
      lookupK k (l.foldl (fun m i => upsert m i.cnpj i) m) =
        (lastOcc k l).or (lookupK k m) := by
  intro l
  induction l with
  | nil => intro m k; simp [lastOcc]
  | cons i rest ih =>
    intro m k
    rw [List.foldl_cons, ih, lastOcc_cons, lookupK_upsert]
    by_cases h : i.cnpj = k
    · simp only [if_pos h]
      cases lastOcc k rest <;> simp
    · simp only [if_neg h]
      cases lastOcc k rest <;> simp

end Widget

namespace Widget

/-- C4: after ingest, no two retained entries share a cnpj, and every retained
entry is the last occurrence of its cnpj in the raw input list. -/
theorem c4_dedup_unique_last_wins :
    ∀ l : List Insurer,
      (uniqueList l).Pairwise (fun a b => a.cnpj ≠ b.cnpj) ∧
      ∀ e ∈ uniqueList l, lastOcc e.cnpj l = some e := by
  intro l
  obtain ⟨hnd, hkeys⟩ :=
    foldl_upsert_invariant l [] (by simp) (by simp)
  constructor
  · have h1 : (toMapEntries l).Pairwise (fun p q => p.1 ≠ q.1) :=
      List.pairwise_map.mp hnd
    have h2 : (toMapEntries l).Pairwise (fun p q => p.2.cnpj ≠ q.2.cnpj) :=
      h1.imp_of_mem fun ha hb hne => by
        rw [← hkeys _ ha, ← hkeys _ hb]
        exact hne
    exact List.pairwise_map.mpr h2
  · intro e he
    obtain ⟨p, hp, hpe⟩ := List.mem_map.mp he
    subst hpe
    rw [← hkeys _ hp]
    have h2 := lookupK_foldl_upsert l [] p.1
    rw [show lookupK p.1 ([] : List (String × Insurer)) = none from rfl,
        Option.or_none] at h2
    rw [← h2]
    exact lookupK_eq_of_mem hnd (by simpa using hp)

/-- Witness for C4: the list `[{cnpj:"11"}, {cnpj:"22"}, {cnpj:"11", name:"B"}]`
retains the later "11" record, which is its last occurrence. -/
theorem c4_dedup_unique_last_wins_witness :
    Insurer.mk "11" (some "B") none ∈
      uniqueList [Insurer.mk "11" none none, Insurer.mk "22" none none,
                  Insurer.mk "11" (some "B") none] ∧
    lastOcc (Insurer.mk "11" (some "B") none).cnpj
      [Insurer.mk "11" none none, Insurer.mk "22" none none,
       Insurer.mk "11" (some "B") none] =
      some (Insurer.mk "11" (some "B") none) :=
  ⟨by decide,
   (c4_dedup_unique_last_wins
      [Insurer.mk "11" none none, Insurer.mk "22" none none,
       Insurer.mk "11" (some "B") none]).2
     (Insurer.mk "11" (some "B") none) (by decide)⟩

/-- C3: when the widget ranks by score, every pair of insurers in the
displayed (paginated) list is ordered by the canonical policy: the earlier one
has a strictly higher effective score, or the scores tie and the earlier one
has at least the premium volume of the later one. -/
theorem c3_sorted_by_score_then_premiums :
    ∀ (term : String) (l : List Insurer) (p : Nat),
      (paginate p (processedData term SortKey.score l)).Pairwise
        (fun a b => scoreOfSort b < scoreOfSort a ∨
          (scoreOfSort a = scoreOfSort b ∧ premOf b ≤ premOf a)) := by
  intro term l p
  have hs : (processedData term SortKey.score l).Pairwise rankR :=
    List.sorted_insertionSort rankR (searchFilter term l)
  have hsub : List.Sublist (paginate p (processedData term SortKey.score l))
      (processedData term SortKey.score l) :=
    List.Sublist.trans (List.take_sublist _ _) (List.drop_sublist _ _)
  exact hs.sublist hsub

end Widget

namespace Widget

theorem step_preserves_pageInv (s : WState) (e : WEvent) (h : pageInv s) :
    pageInv (step s e) := by
  obtain ⟨h1, h2⟩ := h
  cases e with
  | setSearch t =>
    simp only [step]
    by_cases hc : t = s.searchTerm
    · rw [if_pos hc]
      exact ⟨h1, h2⟩
    · rw [if_neg hc]
      exact ⟨le_refl 1, le_max_right _ 1⟩
  | setSort k =>
    simp only [step]
    by_cases hc : k = s.sortKey
    · rw [if_pos hc]
      exact ⟨h1, h2⟩
    · rw [if_neg hc]
      exact ⟨le_refl 1, le_max_right _ 1⟩
  | prevPage =>
    simp only [step]
    by_cases hc : s.totalPages ≤ 1 ∨ s.currentPage = 1
    · rw [if_pos hc]
      exact ⟨h1, h2⟩
    · rw [if_neg hc]
      refine ⟨le_max_left 1 _, ?_⟩
      show max 1 (s.currentPage - 1) ≤ max s.totalPages 1
      omega
  | nextPage =>
    simp only [step]
    by_cases hc : s.totalPages ≤ 1 ∨ s.currentPage = s.totalPages
    · rw [if_pos hc]
      exact ⟨h1, h2⟩
    · rw [if_neg hc]
      rw [not_or, Nat.not_le] at hc
      obtain ⟨hc1, _⟩ := hc
      refine ⟨?_, ?_⟩
      · show 1 ≤ min s.totalPages (s.currentPage + 1)
        omega
      · show min s.totalPages (s.currentPage + 1) ≤ max s.totalPages 1
        omega

theorem pageInv_foldl :
    ∀ (evs : List WEvent) (s : WState), pageInv s → pageInv (evs.foldl step s) := by
  intro evs
  induction evs with
  | nil => intro s h; exact h
  | cons e rest ih =>
    intro s h
    exact ih _ (step_preserves_pageInv s e h)

theorem paginate_length_le (p : Nat) (l : List Insurer) :
    (paginate p l).length ≤ 10 := by
  have h1 : ((l.drop ((p - 1) * 10)).take (p * 10 - (p - 1) * 10)).length ≤
      p * 10 - (p - 1) * 10 := List.length_take_le _ _
  have h2 : p * 10 - (p - 1) * 10 ≤ 10 := by omega
  exact le_trans h1 h2

/-- C10: in every state reachable from the initial state by search, sort and
page-navigation events, at most 10 insurers are rendered, the current page lies
between 1 and `max totalPages 1` (the clamped prev/next transitions keep it
there), and changing the search term or the sort key resets the current page
to 1. -/
theorem c10_pagination_invariants :
    (∀ (raw : List Insurer) (evs : List WEvent),
      1 ≤ (evs.foldl step (initState raw)).currentPage ∧
      (evs.foldl step (initState raw)).currentPage ≤
        max (evs.foldl step (initState raw)).totalPages 1 ∧
      (evs.foldl step (initState raw)).paginated.length ≤ 10) ∧
    (∀ (s : WState) (t : String), t ≠ s.searchTerm →
      (step s (WEvent.setSearch t)).currentPage = 1) ∧
    (∀ (s : WState) (k : SortKey), k ≠ s.sortKey →
      (step s (WEvent.setSort k)).currentPage = 1) := by
  refine ⟨?_, ?_, ?_⟩
  · intro raw evs
    have h := pageInv_foldl evs (initState raw) ⟨le_refl 1, le_max_right _ 1⟩
    exact ⟨h.1, h.2, paginate_length_le _ _⟩
  · intro s t ht
    simp only [step, if_neg ht]
  · intro s k hk
    simp only [step, if_neg hk]

/-- Witness for C10: from a state on page 5, changing the search term to
`"abc"` or the sort key to premiums resets the page to 1. -/
theorem c10_pagination_invariants_witness :
    ("abc" ≠ (WState.mk [] "" SortKey.score 5).searchTerm) ∧
    (step (WState.mk [] "" SortKey.score 5) (WEvent.setSearch "abc")).currentPage = 1 ∧
    (SortKey.premiums ≠ (WState.mk [] "" SortKey.score 5).sortKey) ∧
    (step (WState.mk [] "" SortKey.score 5) (WEvent.setSort SortKey.premiums)).currentPage = 1 :=
  ⟨by decide,
   c10_pagination_invariants.2.1 (WState.mk [] "" SortKey.score 5) "abc" (by decide),
   by decide,
   c10_pagination_invariants.2.2 (WState.mk [] "" SortKey.score 5) SortKey.premiums (by decide)⟩

end Widget
